import Mathlib

/-!
Verification of the mealplanner core (planner.py, validators.py, and the
slugify helper of cli.py) against its natural-language specification.

Modelling conventions:
* Python floats are modelled as exact rationals (ℚ).
* A validated recipe dict is modelled by the structure `Recipe`; at the
  normalizer boundary, loosely-typed Python values are modelled by the
  inductive `RawValue` and dicts by association lists (`RawDict`).
* Python code that can raise is modelled with `Except String` / `Option`.
* The seeded PRNG `random.Random(seed)` is modelled by the stream
  `rng : ℕ → ℚ` of its successive `uniform(-0.02, 0.02)` draws, threaded
  through the computation by position; identical seeds yield identical
  streams, so determinism claims quantify over the stream.
-/

/-! ## String helpers (Python substring test, lower, strip) -/

/-- Python `needle in hay` substring test. -/
def strContains (hay needle : String) : Bool :=
  decide ( List.IsInfix needle.toList hay.toList)

/-- Python `str.lower()` (ASCII; the data in this program is ASCII). -/
def lowerStr (s : String) : String :=
  String.mk (s.toList.map Char.toLower)

/-- Python `str.strip()` on a char list: drop whitespace at both ends. -/
def trimChars (cs : List Char) : List Char :=
  ((cs.dropWhile Char.isWhitespace).reverse.dropWhile Char.isWhitespace).reverse

/-! ## Data model (validated recipes), from the planner's field accesses -/

structure Macros where
  protein_g : ℚ
  fiber_g : ℚ
  kcals : ℚ
deriving DecidableEq

structure Ingredient where
  item : String
  qty : String
deriving DecidableEq

/-- A validated recipe record.  `source` models `r.get("source", "curated")`:
the default is applied at construction. -/
structure Recipe where
  id : String
  name : String
  tags : List String
  method : String
  minutes : ℤ
  ingredients : List Ingredient
  macros : Macros
  cost_usd : ℚ
  source : String := "curated"
deriving DecidableEq

/-- Preferences; the planner only reads `prefs.get("avoid_whole_tomatoes", True)`. -/
structure Prefs where
  avoid_whole_tomatoes : Bool := true
deriving DecidableEq

structure PlanItem where
  day : String
  recipe_id : String
deriving DecidableEq

structure WeekPlan where
  items : List PlanItem
  total_cost_usd : ℚ
  protein_g_total : ℚ
  fiber_g_total : ℚ
  fallback_used : Bool
deriving DecidableEq

/-! ## planner.py constants -/

def DAYS : List String := ["Mon", "Tue", "Wed", "Thu", "Fri", "Sat", "Sun"]

/-- Banned tokens; a Python set, but only membership/`any` is used, so a list
is an order-faithful model. -/
def BANNED_TOKENS : List String := ["shellfish", "raw onion", "kale"]

def MAX_MEAL_COST : ℚ := 18

/-- The keyword→protein-group table, in Python dict (insertion) order. -/
def PROTEIN_KEYWORDS : List (String × String) :=
  [("chicken", "chicken"), ("beef", "beef"), ("salmon", "fish"), ("fish", "fish"),
   ("egg", "eggs"), ("eggs", "eggs"), ("turkey", "turkey"), ("pork", "pork"),
   ("tofu", "veg"), ("bean", "veg"), ("lentil", "veg")]

/-- planner._protein_group: scan the lowered name, then each ingredient's
item text, for the first matching keyword; default "other". -/
def _protein_group (recipe_name : String) (ingredients : List Ingredient) : String :=
  match PROTEIN_KEYWORDS.find? (fun kw => strContains (lowerStr recipe_name) kw.1) with
  | some kw => kw.2
  | none =>
    match ingredients.findSome? (fun ing =>
        (PROTEIN_KEYWORDS.find? (fun kw => strContains (lowerStr ing.item) kw.1)).map (·.2)) with
    | some grp => grp
    | none => "other"

/-- planner._ok: the per-plan eligibility filter, check order as in source
(banned tokens; whole-tomato preference; very_spicy tag; macro floor; cost cap).
Note the tag checks: banned tokens are substring-matched against each raw tag,
`whole_tomatoes` and `very_spicy` are exact list membership. -/
def _ok (recipe : Recipe) (prefs : Prefs) : Bool :=
  let name := lowerStr recipe.name
  if BANNED_TOKENS.any (fun token =>
      strContains name token || recipe.tags.any (fun t => strContains t token)) then false
  else if prefs.avoid_whole_tomatoes && recipe.tags.contains "whole_tomatoes" then false
  else if recipe.tags.contains "very_spicy" then false
  else if decide (recipe.macros.protein_g < 40) || decide (recipe.macros.fiber_g < 6) then false
  else if decide (recipe.cost_usd > MAX_MEAL_COST) then false
  else true

/-- planner._score.  `jitter` is the value of this call's `rng.uniform(-0.02, 0.02)`
draw (see the PRNG modelling note at the top). -/
def _score (recipe : Recipe) (ratings_avg : String → Option ℚ) (ratings_count : String → ℕ)
    (used_methods used_groups : List String) (jitter : ℚ) (rating_weight : ℚ) : ℚ :=
  let protein := recipe.macros.protein_g
  let fiber := recipe.macros.fiber_g
  let cost := recipe.cost_usd
  let base := 3/10 * protein + 3/20 * fiber - 1/4 * cost
  let n := ratings_count recipe.id
  let strength : ℚ := if 2 ≤ n then 1 else if n = 1 then 1/2 else 0
  let bias := (match ratings_avg recipe.id with
    | some avg => (avg - 3) * (3/4) * strength
    | none => 0) * rating_weight
  let method_bonus : ℚ := if used_methods.contains recipe.method then 0 else 3/20
  let group := _protein_group recipe.name recipe.ingredients
  let group_bonus : ℚ := if used_groups.contains group then 0 else 3/20
  let novelty : ℚ := if recipe.source = "llm" then 1/10 else 0
  base + bias + method_bonus + group_bonus + novelty + jitter

/-! ## Greedy selection (planner._greedy_pick) -/

/-- The diversity bookkeeping state the Python code mutates in place
(`used_methods`, `used_groups`, `already_ids`); modelled as lists with
set-membership semantics. -/
structure DivState where
  used_methods : List String
  used_groups : List String
  already_ids : List String

def addChoice (st : DivState) (best : Recipe) : DivState :=
  { used_methods := best.method :: st.used_methods,
    used_groups := _protein_group best.name best.ingredients :: st.used_groups,
    already_ids := best.id :: st.already_ids }

/-- Score every remaining candidate, drawing one jitter value per candidate
in list order (one `rng.uniform` call each); returns the scored list and the
advanced stream position. -/
def scoreRound (ratings_avg : String → Option ℚ) (ratings_count : String → ℕ)
    (st : DivState) (rng : ℕ → ℚ) (rating_weight : ℚ) :
    List Recipe → ℕ → List (Recipe × ℚ) × ℕ
  | [], pos => ([], pos)
  | r :: rs, pos =>
    let s := _score r ratings_avg ratings_count st.used_methods st.used_groups (rng pos) rating_weight
    let rest := scoreRound ratings_avg ratings_count st rng rating_weight rs (pos + 1)
    ((r, s) :: rest.1, rest.2)

/-- First pair attaining the maximal score: the head of Python's stable sort
by score descending (`scored.sort(key=..., reverse=True); scored[0]`).  A later
element replaces the current best only on a strictly greater score, so ties
keep the earliest element, exactly as a stable descending sort does. -/
def pickBestAux : Recipe × ℚ → List (Recipe × ℚ) → Recipe × ℚ
  | best, [] => best
  | best, x :: xs => pickBestAux (if best.2 < x.2 then x else best) xs

/-- planner._greedy_pick: up to `k` rounds; each round filters the pool by
`already_ids`, scores every remaining candidate (one fresh jitter draw each),
picks the best, and extends the diversity state. -/
def _greedy_pick (pool : List Recipe) (ratings_avg : String → Option ℚ)
    (ratings_count : String → ℕ) (rng : ℕ → ℚ) (rating_weight : ℚ) :
    ℕ → DivState → ℕ → List Recipe × DivState × ℕ
  | 0, st, pos => ([], st, pos)
  | k + 1, st, pos =>
    match pool.filter (fun r => !(st.already_ids.contains r.id)) with
    | [] => ([], st, pos)
    | r0 :: rs =>
      let s0 := _score r0 ratings_avg ratings_count st.used_methods st.used_groups (rng pos) rating_weight
      let scored := scoreRound ratings_avg ratings_count st rng rating_weight rs (pos + 1)
      let best := (pickBestAux (r0, s0) scored.1).1
      let rest := _greedy_pick pool ratings_avg ratings_count rng rating_weight k (addChoice st best) scored.2
      (best :: rest.1, rest.2.1, rest.2.2)

/-! ## Week planner (planner.plan_week), staged -/

/-- The `filtered(exclude)` closure in plan_week. -/
def eligibleRecipes (recipes : List Recipe) (prefs : Prefs)
    (exclude_recipe_ids : List String) (exclude : Bool) : List Recipe :=
  recipes.filter (fun r =>
    _ok r prefs && (if exclude then !(exclude_recipe_ids.contains r.id) else true))

/-- Candidate set plus the fallback flag: relax the exclusion set when fewer
than 7 eligible candidates remain and `fallback_on_shortage` is set. -/
def candsAndFallback (recipes : List Recipe) (prefs : Prefs)
    (exclude_recipe_ids : List String) (fallback_on_shortage : Bool) :
    List Recipe × Bool :=
  if (eligibleRecipes recipes prefs exclude_recipe_ids true).length < 7
      && fallback_on_shortage then
    (eligibleRecipes recipes prefs exclude_recipe_ids false, true)
  else (eligibleRecipes recipes prefs exclude_recipe_ids true, false)

/-- Stable insertion step for ascending sort by `cost_usd`: place the new
element before the first entry whose cost is not strictly smaller, so equal
costs keep original order (Python `list.sort` is stable). -/
def insertByCost (r : Recipe) : List Recipe → List Recipe
  | [] => [r]
  | s :: ss => if s.cost_usd < r.cost_usd then s :: insertByCost r ss else r :: s :: ss

/-- Stable ascending sort by `cost_usd` (`pool.sort(key=lambda r: r["cost_usd"])`). -/
def sortByCost : List Recipe → List Recipe
  | [] => []
  | r :: rs => insertByCost r (sortByCost rs)

def sumCost (l : List Recipe) : ℚ := (l.map (·.cost_usd)).sum
def sumProtein (l : List Recipe) : ℚ := (l.map (·.macros.protein_g)).sum
def sumFiber (l : List Recipe) : ℚ := (l.map (·.macros.fiber_g)).sum

/-- Quota pass of plan_week: if the generated pool is non-empty, greedily
select `min(min_llm, 7, len(llm_pool))` recipes from it alone, starting from
the empty diversity state. -/
def quotaPass (llm_pool : List Recipe) (ratings_avg : String → Option ℚ)
    (ratings_count : String → ℕ) (min_llm : ℕ) (rng : ℕ → ℚ) (rating_weight : ℚ) :
    List Recipe × DivState × ℕ :=
  if llm_pool.isEmpty then (([] : List Recipe), ⟨[], [], []⟩, 0)
  else _greedy_pick llm_pool ratings_avg ratings_count rng rating_weight
      (min min_llm (min 7 llm_pool.length)) ⟨[], [], []⟩ 0

/-- Fill pass of plan_week: greedily select the remaining slots (if any) from
the combined pool, continuing the quota pass's diversity state. -/
def fillPass (combined : List Recipe) (ratings_avg : String → Option ℚ)
    (ratings_count : String → ℕ) (rng : ℕ → ℚ) (rating_weight : ℚ)
    (p : List Recipe × DivState × ℕ) : List Recipe × DivState × ℕ :=
  if 0 < 7 - p.1.length then
    let f := _greedy_pick combined ratings_avg ratings_count rng rating_weight
      (7 - p.1.length) p.2.1 p.2.2
    (p.1 ++ f.1, f.2.1, f.2.2)
  else p

/-- Pad pass of plan_week: if still short of 7, append the cheapest
not-yet-chosen candidates (stable ascending by cost), recording their ids. -/
def padPass (cands : List Recipe) (p : List Recipe × DivState × ℕ) :
    List Recipe × DivState :=
  let pad := (sortByCost (cands.filter (fun r => !(p.2.1.already_ids.contains r.id)))).take
    (7 - p.1.length)
  (p.1 ++ pad, { p.2.1 with already_ids := pad.map (·.id) ++ p.2.1.already_ids })

/-- Quota pass, fill pass and pad pass of plan_week: returns the chosen list
before budget repair together with the final diversity state (whose
`already_ids` holds exactly the chosen ids, as in the source). -/
def preSelect (cands : List Recipe) (ratings_avg : String → Option ℚ)
    (ratings_count : String → ℕ) (min_llm : ℕ) (rng : ℕ → ℚ) (rating_weight : ℚ) :
    List Recipe × DivState :=
  let llm_pool := cands.filter (fun r => r.source == "llm")
  let curated_pool := cands.filter (fun r => !(r.source == "llm"))
  padPass cands
    (fillPass (llm_pool ++ curated_pool) ratings_avg ratings_count rng rating_weight
      (quotaPass llm_pool ratings_avg ratings_count min_llm rng rating_weight))

/-- Index of the first element with maximal `cost_usd`.  Python's
`max(chosen, key=...)` returns the first maximal element, and
`new_list.index(priciest)` then finds exactly that position (an earlier equal
dict would itself be a first maximal element). -/
def firstMaxCostIdxAux (bestCost : ℚ) (bestIdx i : ℕ) : List Recipe → ℕ
  | [] => bestIdx
  | r :: rs =>
    if bestCost < r.cost_usd then firstMaxCostIdxAux r.cost_usd i (i + 1) rs
    else firstMaxCostIdxAux bestCost bestIdx (i + 1) rs

/-- The budget-repair loop (`for _ in range(12)`): each iteration pops the
cheapest not-yet-chosen candidate and tries swapping it for the first-maximal
priciest chosen recipe; accept and stop as soon as the new total is within
budget, stop when the pool or the chosen list is empty or fuel runs out. -/
def repairLoop (budget : ℚ) : ℕ → List Recipe → List Recipe → List Recipe
  | 0, chosen, _ => chosen
  | _ + 1, [], _ => []
  | _ + 1, c0 :: cs, [] => c0 :: cs
  | fuel + 1, c0 :: cs, cheaper :: poolRest =>
    let idx := firstMaxCostIdxAux c0.cost_usd 0 1 cs
    let new_list := (c0 :: cs).set idx cheaper
    if sumCost new_list ≤ budget then new_list
    else repairLoop budget fuel (c0 :: cs) poolRest

/-- The chosen list after the (conditional) budget-repair pass.  The Python
code recomputes the three totals whenever `chosen` changes; the emitted totals
always equal the sums over the final chosen list, which is how `plan_week`
below computes them. -/
def finalSelection (recipes : List Recipe) (prefs : Prefs) (budget : ℚ)
    (exclude_recipe_ids : List String) (ratings_avg : String → Option ℚ)
    (ratings_count : String → ℕ) (fallback_on_shortage : Bool) (min_llm : ℕ)
    (rng : ℕ → ℚ) (rating_weight : ℚ) : List Recipe :=
  if budget < sumCost (preSelect
      (candsAndFallback recipes prefs exclude_recipe_ids fallback_on_shortage).1
      ratings_avg ratings_count min_llm rng rating_weight).1 then
    repairLoop budget 12
      (preSelect (candsAndFallback recipes prefs exclude_recipe_ids fallback_on_shortage).1
        ratings_avg ratings_count min_llm rng rating_weight).1
      (sortByCost ((candsAndFallback recipes prefs exclude_recipe_ids fallback_on_shortage).1.filter
        (fun r => !((preSelect
            (candsAndFallback recipes prefs exclude_recipe_ids fallback_on_shortage).1
            ratings_avg ratings_count min_llm rng rating_weight).2.already_ids.contains r.id))))
  else (preSelect (candsAndFallback recipes prefs exclude_recipe_ids fallback_on_shortage).1
      ratings_avg ratings_count min_llm rng rating_weight).1

/-- Python `round(x, ndigits)` rounds half to even. -/
def roundHalfEven (q : ℚ) : ℤ :=
  let f := ⌊q⌋
  if q - f < 1/2 then f
  else if (1 : ℚ)/2 < q - f then f + 1
  else if f % 2 = 0 then f else f + 1

def round2 (q : ℚ) : ℚ := (roundHalfEven (q * 100) : ℚ) / 100

def round1 (q : ℚ) : ℚ := (roundHalfEven (q * 10) : ℚ) / 10

/-- planner.plan_week.  `items` zips DAYS with the chosen list (Python `zip`
truncates to the shorter list). -/
def plan_week (recipes : List Recipe) (prefs : Prefs) (budget : ℚ)
    (exclude_recipe_ids : List String) (ratings_avg : String → Option ℚ)
    (ratings_count : String → ℕ) (fallback_on_shortage : Bool) (min_llm : ℕ)
    (rng : ℕ → ℚ) (rating_weight : ℚ) : WeekPlan :=
  let chosen := finalSelection recipes prefs budget exclude_recipe_ids ratings_avg
    ratings_count fallback_on_shortage min_llm rng rating_weight
  { items := (DAYS.zip chosen).map (fun p => { day := p.1, recipe_id := p.2.id }),
    total_cost_usd := round2 (sumCost chosen),
    protein_g_total := round1 (sumProtein chosen),
    fiber_g_total := round1 (sumFiber chosen),
    fallback_used := (candsAndFallback recipes prefs exclude_recipe_ids fallback_on_shortage).2 }

/-- The ids of generated-source recipes in a pool. -/
def llmIds (recipes : List Recipe) : List String :=
  (recipes.filter (fun r => r.source == "llm")).map (·.id)

/-! ## Loosely-typed Python values (the normalizer boundary) -/

/-- A loosely-typed Python value as it appears in raw LLM candidate records. -/
inductive RawValue where
  | none
  | str (s : String)
  | int (n : ℤ)
  | float (q : ℚ)
  | list (xs : List RawValue)
  | dict (entries : List (String × RawValue))

abbrev RawDict := List (String × RawValue)

/-- Python `d[k]` lookup / `d.get(k)`; dict keys are unique, first match. -/
def rawGet : RawDict → String → Option RawValue
  | [], _ => Option.none
  | (k, v) :: rest, key => if k = key then some v else rawGet rest key

/-- Python `d.get(k, default)`. -/
def rawGetD (d : RawDict) (key : String) (dflt : RawValue) : RawValue :=
  (rawGet d key).getD dflt

/-- Python `d[k] = v` (replace if present, else append). -/
def rawSet : RawDict → String → RawValue → RawDict
  | [], k, v => [(k, v)]
  | (k0, v0) :: rest, k, v =>
    if k0 = k then (k0, v) :: rest else (k0, v0) :: rawSet rest k v

/-- Python `str(x)`.  The exact rendering of floats, lists and dicts is not
modelled (no claim depends on it); scalars match Python. -/
def pyStr : RawValue → String
  | .none => "None"
  | .str s => s
  | .int n => toString n
  | .float q => toString q
  | .list _ => "[list]"
  | .dict _ => "[dict]"

/-- Digit-string value; fails on any non-digit. -/
def digitsToNat (acc : ℕ) : List Char → Option ℕ
  | [] => some acc
  | c :: cs => if c.isDigit then digitsToNat (acc * 10 + (c.toNat - 48)) cs else Option.none

/-- Python `int(s)` on a string: optional sign, then decimal digits
(whitespace stripped); anything else raises ValueError (`Option.none`). -/
def pyParseInt (s : String) : Option ℤ :=
  match trimChars s.toList with
  | [] => Option.none
  | '-' :: rest =>
    match rest with
    | [] => Option.none
    | _ => (digitsToNat 0 rest).map (fun n => -(n : ℤ))
  | '+' :: rest =>
    match rest with
    | [] => Option.none
    | _ => (digitsToNat 0 rest).map (fun n => (n : ℤ))
  | cs => (digitsToNat 0 cs).map (fun n => (n : ℤ))

/-- Python `int(x)`: ints pass through, floats truncate toward zero, numeric
strings parse; everything else raises (`Option.none`). -/
def pyIntOpt : RawValue → Option ℤ
  | .int n => some n
  | .float q => some (if q < 0 then ⌈q⌉ else ⌊q⌋)
  | .str s => pyParseInt s
  | _ => Option.none

/-- Python `list(x)`: lists pass through, a string yields its characters, a
dict yields its keys; ints/floats/None raise TypeError (`Option.none`). -/
def pyListOpt : RawValue → Option (List RawValue)
  | .list xs => some xs
  | .str s => some (s.toList.map (fun c => RawValue.str (String.singleton c)))
  | .dict entries => some (entries.map (fun kv => RawValue.str kv.1))
  | _ => Option.none

/-- Python `float(s)` on a string, modelled for plain decimal literals:
optional sign, digits with at most one decimal point. -/
def pyParseFloat (s : String) : Option ℚ :=
  let cs := trimChars s.toList
  let signBody : ℚ × List Char :=
    match cs with
    | '-' :: rest => (-1, rest)
    | '+' :: rest => (1, rest)
    | _ => (1, cs)
  let sign := signBody.1
  let body := signBody.2
  let ipart := body.takeWhile (fun c => !(c = '.'))
  match body.drop ipart.length with
  | [] =>
    if ipart.isEmpty then Option.none
    else (digitsToNat 0 ipart).map (fun n => sign * (n : ℚ))
  | '.' :: fpart =>
    if ipart.isEmpty && fpart.isEmpty then Option.none
    else
      match digitsToNat 0 ipart, digitsToNat 0 fpart with
      | some i, some fr => some (sign * ((i : ℚ) + (fr : ℚ) / (10 ^ fpart.length : ℚ)))
      | _, _ => Option.none
  | _ => Option.none

/-- Python `float(x)`: ints and floats pass through, decimal strings parse;
None/lists/dicts raise (`Option.none`). -/
def pyFloatOpt : RawValue → Option ℚ
  | .int n => some (n : ℚ)
  | .float q => some q
  | .str s => pyParseFloat s
  | _ => Option.none

/-- The `_float(x, default=0.0)` helper inside normalize_llm_candidate:
best-effort coercion, swallowing every exception. -/
def _float (x : RawValue) (default : ℚ) : ℚ := (pyFloatOpt x).getD default

/-! ## validators.py -/

def REQUIRED_RECIPE_KEYS : List String :=
  ["id", "name", "tags", "method", "minutes", "ingredients", "macros", "cost_usd"]

def REQUIRED_MACRO_KEYS : List String := ["protein_g", "fiber_g", "kcals"]

/-- validators.validate_recipe_schema.  Message texts are approximations; all
claims depend only on the ok flag and on emptiness of the error list. -/
def validate_recipe_schema (recipe : RawDict) : Bool × List String :=
  let keys := recipe.map (·.1)
  let missing := REQUIRED_RECIPE_KEYS.filter (fun k => !(keys.contains k))
  let errors1 : List String :=
    if missing.isEmpty then [] else ["missing keys: " ++ String.intercalate ", " missing]
  let missing_macros :=
    match rawGetD recipe "macros" (.dict []) with
    | .dict m => REQUIRED_MACRO_KEYS.filter (fun k => !((m.map (·.1)).contains k))
    | _ => REQUIRED_MACRO_KEYS
  let errors2 : List String :=
    if missing_macros.isEmpty then []
    else ["macros missing keys: " ++ String.intercalate ", " missing_macros]
  let errors3 : List String :=
    match rawGet recipe "ingredients" with
    | some (.list _) => []
    | _ => ["ingredients must be a list"]
  let errors4 : List String :=
    match rawGet recipe "tags" with
    | some (.list _) => []
    | _ => ["tags must be a list"]
  let errors := errors1 ++ errors2 ++ errors3 ++ errors4
  (errors.isEmpty, errors)

/-- Python `" ".join(x)`: a list joins its (string) elements, a string joins
its characters, a dict joins its keys; non-string elements and non-iterables
raise TypeError (`Option.none`). -/
def pyJoinSpace : RawValue → Option String
  | .list xs =>
    (xs.mapM (fun x => match x with | RawValue.str s => some s | _ => Option.none)).map
      (String.intercalate " ")
  | .str s => some (String.intercalate " " (s.toList.map String.singleton))
  | .dict entries => some (String.intercalate " " (entries.map (·.1)))
  | _ => Option.none

/-- A value usable on the left of `< 40` against an int (Python TypeError
otherwise, modelled as `Option.none`). -/
def pyNumOpt : RawValue → Option ℚ
  | .int n => some (n : ℚ)
  | .float q => some q
  | _ => Option.none

/-- validators.hard_guardrails, at the dict level.  Evaluation order and
short-circuiting follow the source: name and joined tag string are computed
first, then the five checks run in order; `Except.error` marks the places
where the Python code would raise on ill-typed data. -/
def hard_guardrails (recipe : RawDict) (avoid_whole_tomatoes : Bool) : Except String Bool :=
  match rawGetD recipe "name" (.str "") with
  | .str nm =>
    let name := lowerStr nm
    match pyJoinSpace (rawGetD recipe "tags" (.list [])) with
    | Option.none => .error "TypeError: join on tags"
    | some tagsJoined =>
      let tags := lowerStr tagsJoined
      if BANNED_TOKENS.any (fun tok => strContains name tok || strContains tags tok) then
        .ok false
      else if strContains tags "very_spicy" || strContains name "extra spicy" then
        .ok false
      else if avoid_whole_tomatoes && strContains tags "whole_tomatoes" then
        .ok false
      else
        match rawGetD recipe "macros" (.dict []) with
        | .dict m =>
          match pyNumOpt (rawGetD m "protein_g" (.int 0)) with
          | Option.none => .error "TypeError: protein_g comparison"
          | some p =>
            if p < 40 then .ok false
            else
              match pyNumOpt (rawGetD m "fiber_g" (.int 0)) with
              | Option.none => .error "TypeError: fiber_g comparison"
              | some fib =>
                if fib < 6 then .ok false
                else
                  match pyFloatOpt (rawGetD recipe "cost_usd" (.int 0)) with
                  | Option.none => .error "TypeError: float on cost_usd"
                  | some cu =>
                    if MAX_MEAL_COST < cu then .ok false else .ok true
        | _ => .error "AttributeError: macros has no attribute get"
  | _ => .error "AttributeError: name has no attribute lower"

/-- validators.normalize_llm_candidate.  Field coercions run in the order of
the Python dict literal (id, name, tags, method, minutes, ingredients, macros,
cost_usd); the first failing coercion raises, modelled by `Except.error`. -/
def normalize_llm_candidate (c : RawDict) : Except String RawDict :=
  let idStr := pyStr (rawGetD c "id" .none)
  let nameStr := pyStr (rawGetD c "name" .none)
  match pyListOpt (rawGetD c "tags" (.list [])) with
  | Option.none => .error "TypeError: list on tags"
  | some tags =>
    let methodStr := pyStr (rawGetD c "method" (.str "stovetop"))
    match pyIntOpt (rawGetD c "minutes" (.int 0)) with
    | Option.none => .error "ValueError: int on minutes"
    | some minutes =>
      match pyListOpt (rawGetD c "ingredients" (.list [])) with
      | Option.none => .error "TypeError: list on ingredients"
      | some ingredients =>
        match rawGetD c "macros" (.dict []) with
        | .dict m =>
          .ok [("id", .str idStr), ("name", .str nameStr), ("tags", .list tags),
            ("method", .str methodStr), ("minutes", .int minutes),
            ("ingredients", .list ingredients),
            ("macros", .dict
              [("protein_g", .float (_float (rawGetD m "protein_g" (.int 0)) 0)),
               ("fiber_g", .float (_float (rawGetD m "fiber_g" (.int 0)) 0)),
               ("kcals", .float (_float (rawGetD m "kcals" (.int 0)) 0))]),
            ("cost_usd", .float (_float (rawGetD c "cost_usd" (.int 0)) 0)),
            ("source", .str "llm")]
        | _ => .error "AttributeError: macros has no attribute get"

/-! ## cli.py slugify -/

/-- Collapse each maximal whitespace run to a single hyphen
(`re.sub(r"\s+", "-", s)`); the flag records whether the previous character
was part of a whitespace run. -/
def collapseWS : Bool → List Char → List Char
  | _, [] => []
  | prevWS, c :: cs =>
    if c.isWhitespace then
      if prevWS then collapseWS true cs else '-' :: collapseWS true cs
    else c :: collapseWS false cs

def isSlugChar (c : Char) : Bool :=
  ('a' ≤ c && c ≤ 'z') || ('0' ≤ c && c ≤ '9') || c = '-'

/-- cli.slugify.  `fallbackToken` stands for the process-random
`secrets.token_hex(3)` used only when the slug comes out empty. -/
def slugify (fallbackToken : String) (s : String) : String :=
  let s1 := s.toList.map Char.toLower
  let s2 := trimChars s1
  let s3 := (s2.map (fun c => if c = '&' then "and".toList else [c])).flatten
  let s4 := s3.map (fun c => if c = '/' then '-' else c)
  let s5 := collapseWS false s4
  let s6 := s5.filter isSlugChar
  let s7 := s6.take 40
  if s7.isEmpty then "r-" ++ fallbackToken else String.mk s7

/-- The recipe dict seen by dict-level code for a validated typed recipe. -/
def Recipe.toDict (r : Recipe) : RawDict :=
  [("id", .str r.id), ("name", .str r.name), ("tags", .list (r.tags.map .str)),
   ("method", .str r.method), ("minutes", .int r.minutes),
   ("ingredients", .list (r.ingredients.map (fun i =>
      RawValue.dict [("item", .str i.item), ("qty", .str i.qty)]))),
   ("macros", .dict [("protein_g", .float r.macros.protein_g),
                     ("fiber_g", .float r.macros.fiber_g),
                     ("kcals", .float r.macros.kcals)]),
   ("cost_usd", .float r.cost_usd), ("source", .str r.source)]

/-! ## Counting lemmas about id-filters -/

/-- Removing the unique element with a given id from a list with pairwise
distinct ids shrinks the length by exactly one. -/
lemma length_filter_idne {l : List Recipe} {a : String}
    (hnd : (l.map (·.id)).Nodup) (ha : a ∈ l.map (·.id)) :
    (l.filter (fun r => !(r.id == a))).length = l.length - 1 := by
  induction l with
  | nil => simp at ha
  | cons c cs ih =>
    simp only [List.map_cons, List.nodup_cons] at hnd
    obtain ⟨hc, hcs⟩ := hnd
    rcases List.mem_cons.mp ha with h | h
    · subst h
      have hall : ∀ r ∈ cs, (!(r.id == c.id)) = true := by
        intro r hr
        simp only [Bool.not_eq_true', beq_eq_false_iff_ne]
        intro he
        exact hc (he ▸ List.mem_map_of_mem (·.id) hr)
      rw [List.filter_cons_of_neg (by simp), List.filter_eq_self.mpr hall]
      simp
    · have hca : ¬ ((c.id == a) = true) := by
        simp only [beq_iff_eq]
        intro he
        exact hc (he ▸ h)
      rw [List.filter_cons_of_pos (by simpa using hca)]
      have hlen : 1 ≤ cs.length := by
        rcases List.mem_map.mp h with ⟨r, hr, _⟩
        exact List.length_pos.mpr (List.ne_nil_of_mem hr)
      simp only [List.length_cons, ih hcs h]
      omega

/-- Filtering out a duplicate-free batch of ids that all occur in a
duplicate-free pool removes exactly one entry per id. -/
lemma length_filter_not_contains {cands : List Recipe} {A : List String}
    (hnd : (cands.map (·.id)).Nodup) (hA : A.Nodup)
    (hsub : ∀ a ∈ A, a ∈ cands.map (·.id)) :
    (cands.filter (fun r => !(A.contains r.id))).length = cands.length - A.length := by
  induction A with
  | nil =>
    rw [List.filter_eq_self.mpr (by intro r _; simp)]
    simp
  | cons a A ih =>
    simp only [List.nodup_cons] at hA
    have hstep : cands.filter (fun r => !((a :: A).contains r.id))
        = (cands.filter (fun r => !(A.contains r.id))).filter (fun r => !(r.id == a)) := by
      rw [List.filter_filter]
      refine List.filter_congr ?_
      intro x _
      rw [List.contains_cons, Bool.not_or, Bool.and_comm]
    have hsubl : (cands.filter (fun r => !(A.contains r.id))).Sublist cands :=
      List.filter_sublist _
    have hnd' : ((cands.filter (fun r => !(A.contains r.id))).map (·.id)).Nodup :=
      hnd.sublist (hsubl.map _)
    have ha' : a ∈ (cands.filter (fun r => !(A.contains r.id))).map (·.id) := by
      rcases List.mem_map.mp (hsub a (List.mem_cons_self a A)) with ⟨r, hr, hre⟩
      refine List.mem_map.mpr ⟨r, List.mem_filter.mpr ⟨hr, ?_⟩, hre⟩
      have : ¬ (r.id ∈ A) := by rw [hre]; exact hA.1
      simpa using this
    have hlen1 : (cands.filter (fun r => !(A.contains r.id))).length
        = cands.length - A.length :=
      ih hA.2 (fun b hb => hsub b (List.mem_cons_of_mem a hb))
    have hpos : 1 ≤ (cands.filter (fun r => !(A.contains r.id))).length := by
      rcases List.mem_map.mp ha' with ⟨r, hr, _⟩
      exact List.length_pos.mpr (List.ne_nil_of_mem hr)
    rw [hstep, length_filter_idne hnd' ha', hlen1]
    simp only [List.length_cons]
    omega

/-! ## Sorting preserves length -/

lemma insertByCost_length (r : Recipe) : ∀ l : List Recipe,
    (insertByCost r l).length = l.length + 1 := by
  intro l
  induction l with
  | nil => rfl
  | cons s ss ih =>
    simp only [insertByCost]
    split
    · simp [ih]
    · simp

lemma sortByCost_length : ∀ l : List Recipe, (sortByCost l).length = l.length := by
  intro l
  induction l with
  | nil => rfl
  | cons r rs ih => simp [sortByCost, insertByCost_length, ih]

/-! ## Greedy selection lemmas -/

lemma scoreRound_fst (avg : String → Option ℚ) (cnt : String → ℕ) (st : DivState)
    (rng : ℕ → ℚ) (rw : ℚ) :
    ∀ (rs : List Recipe) (pos : ℕ),
      ((scoreRound avg cnt st rng rw rs pos).1.map (·.1)) = rs := by
  intro rs
  induction rs with
  | nil => intro pos; rfl
  | cons r rs ih => intro pos; simp [scoreRound, ih]

lemma pickBestAux_mem : ∀ (xs : List (Recipe × ℚ)) (seed : Recipe × ℚ),
    pickBestAux seed xs ∈ seed :: xs := by
  intro xs
  induction xs with
  | nil => intro seed; simp [pickBestAux]
  | cons x xs ih =>
    intro seed
    simp only [pickBestAux]
    rcases List.mem_cons.mp (ih (if seed.2 < x.2 then x else seed)) with h1 | h1
    · rw [h1]
      split
      · exact List.mem_cons_of_mem _ (List.mem_cons_self _ _)
      · exact List.mem_cons_self _ _
    · exact List.mem_cons_of_mem _ (List.mem_cons_of_mem _ h1)

/-- The recipe picked in one greedy round, given the non-empty remaining list. -/
def greedyBest (avg : String → Option ℚ) (cnt : String → ℕ) (rng : ℕ → ℚ) (rw : ℚ)
    (st : DivState) (pos : ℕ) (r0 : Recipe) (rs : List Recipe) : Recipe :=
  (pickBestAux (r0, _score r0 avg cnt st.used_methods st.used_groups (rng pos) rw)
    (scoreRound avg cnt st rng rw rs (pos + 1)).1).1

lemma greedy_step_nil (pool : List Recipe) (avg : String → Option ℚ) (cnt : String → ℕ)
    (rng : ℕ → ℚ) (rw : ℚ) (k : ℕ) (st : DivState) (pos : ℕ)
    (h : pool.filter (fun r => !(st.already_ids.contains r.id)) = []) :
    _greedy_pick pool avg cnt rng rw (k + 1) st pos = ([], st, pos) := by
  rw [_greedy_pick, h]

lemma greedy_step_cons (pool : List Recipe) (avg : String → Option ℚ) (cnt : String → ℕ)
    (rng : ℕ → ℚ) (rw : ℚ) (k : ℕ) (st : DivState) (pos : ℕ) {r0 : Recipe} {rs : List Recipe}
    (h : pool.filter (fun r => !(st.already_ids.contains r.id)) = r0 :: rs) :
    _greedy_pick pool avg cnt rng rw (k + 1) st pos
      = ((greedyBest avg cnt rng rw st pos r0 rs)
          :: (_greedy_pick pool avg cnt rng rw k
                (addChoice st (greedyBest avg cnt rng rw st pos r0 rs))
                (scoreRound avg cnt st rng rw rs (pos + 1)).2).1,
         (_greedy_pick pool avg cnt rng rw k
            (addChoice st (greedyBest avg cnt rng rw st pos r0 rs))
            (scoreRound avg cnt st rng rw rs (pos + 1)).2).2.1,
         (_greedy_pick pool avg cnt rng rw k
            (addChoice st (greedyBest avg cnt rng rw st pos r0 rs))
            (scoreRound avg cnt st rng rw rs (pos + 1)).2).2.2) := by
  rw [_greedy_pick, h]
  rfl

lemma greedyBest_mem (pool : List Recipe) (avg : String → Option ℚ) (cnt : String → ℕ)
    (rng : ℕ → ℚ) (rw : ℚ) (st : DivState) (pos : ℕ) {r0 : Recipe} {rs : List Recipe}
    (h : pool.filter (fun r => !(st.already_ids.contains r.id)) = r0 :: rs) :
    greedyBest avg cnt rng rw st pos r0 rs
      ∈ pool.filter (fun r => !(st.already_ids.contains r.id)) := by
  rw [h]
  have hmem := pickBestAux_mem
    ((scoreRound avg cnt st rng rw rs (pos + 1)).1)
    (r0, _score r0 avg cnt st.used_methods st.used_groups (rng pos) rw)
  rcases List.mem_cons.mp hmem with h1 | h1
  · rw [greedyBest, h1]
    exact List.mem_cons_self _ _
  · refine List.mem_cons_of_mem _ ?_
    have : (greedyBest avg cnt rng rw st pos r0 rs)
        ∈ (scoreRound avg cnt st rng rw rs (pos + 1)).1.map (·.1) :=
      List.mem_map_of_mem (·.1) h1
    rwa [scoreRound_fst] at this

/-- Structural facts about one greedy run: every pick comes from the pool and
was not excluded at entry; the final `already_ids` is the picks' ids (reversed)
on top of the entry state; the picks have pairwise distinct ids. -/
lemma greedy_spec (pool : List Recipe) (avg : String → Option ℚ) (cnt : String → ℕ)
    (rng : ℕ → ℚ) (rw : ℚ) :
    ∀ (k : ℕ) (st : DivState) (pos : ℕ),
      (∀ r ∈ (_greedy_pick pool avg cnt rng rw k st pos).1,
          r ∈ pool ∧ st.already_ids.contains r.id = false)
      ∧ ((_greedy_pick pool avg cnt rng rw k st pos).2.1.already_ids
          = ((_greedy_pick pool avg cnt rng rw k st pos).1.map (·.id)).reverse
              ++ st.already_ids)
      ∧ ((_greedy_pick pool avg cnt rng rw k st pos).1.map (·.id)).Nodup := by
  intro k
  induction k with
  | zero =>
    intro st pos
    refine ⟨?_, ?_, ?_⟩ <;> simp [_greedy_pick]
  | succ k ih =>
    intro st pos
    cases h : pool.filter (fun r => !(st.already_ids.contains r.id)) with
    | nil =>
      rw [greedy_step_nil pool avg cnt rng rw k st pos h]
      refine ⟨?_, ?_, ?_⟩ <;> simp
    | cons r0 rs =>
      rw [greedy_step_cons pool avg cnt rng rw k st pos h]
      have hbf : greedyBest avg cnt rng rw st pos r0 rs
          ∈ pool.filter (fun r => !(st.already_ids.contains r.id)) :=
        greedyBest_mem pool avg cnt rng rw st pos h
      have hbp : greedyBest avg cnt rng rw st pos r0 rs ∈ pool := (List.mem_filter.mp hbf).1
      have hbc : st.already_ids.contains (greedyBest avg cnt rng rw st pos r0 rs).id = false := by
        have := (List.mem_filter.mp hbf).2
        simpa using this
      obtain ⟨ihmem, ihalready, ihnd⟩ :=
        ih (addChoice st (greedyBest avg cnt rng rw st pos r0 rs))
          (scoreRound avg cnt st rng rw rs (pos + 1)).2
      have hsplit : ∀ r ∈ (_greedy_pick pool avg cnt rng rw k
            (addChoice st (greedyBest avg cnt rng rw st pos r0 rs))
            (scoreRound avg cnt st rng rw rs (pos + 1)).2).1,
          (r.id == (greedyBest avg cnt rng rw st pos r0 rs).id) = false
            ∧ st.already_ids.contains r.id = false := by
        intro r hr
        have hrc := (ihmem r hr).2
        simp only [addChoice, List.contains_cons, Bool.or_eq_false_iff] at hrc
        exact hrc
      refine ⟨?_, ?_, ?_⟩
      · intro r hr
        rcases List.mem_cons.mp hr with h1 | h1
        · exact h1 ▸ ⟨hbp, hbc⟩
        · exact ⟨(ihmem r h1).1, (hsplit r h1).2⟩
      · rw [ihalready]
        simp [addChoice, List.reverse_cons, List.append_assoc]
      · simp only [List.map_cons, List.nodup_cons]
        refine ⟨?_, ihnd⟩
        intro hmem
        rcases List.mem_map.mp hmem with ⟨r, hr, hre⟩
        have := (hsplit r hr).1
        rw [hre] at this
        simp at this

/-- Length of one greedy run over a pool with pairwise distinct ids:
exactly `min k` (remaining candidates at entry). -/
lemma greedy_length (pool : List Recipe) (avg : String → Option ℚ) (cnt : String → ℕ)
    (rng : ℕ → ℚ) (rw : ℚ) (hnd : (pool.map (·.id)).Nodup) :
    ∀ (k : ℕ) (st : DivState) (pos : ℕ),
      (_greedy_pick pool avg cnt rng rw k st pos).1.length
        = min k (pool.filter (fun r => !(st.already_ids.contains r.id))).length := by
  intro k
  induction k with
  | zero => intro st pos; simp [_greedy_pick]
  | succ k ih =>
    intro st pos
    cases h : pool.filter (fun r => !(st.already_ids.contains r.id)) with
    | nil =>
      rw [greedy_step_nil pool avg cnt rng rw k st pos h]
      simp
    | cons r0 rs =>
      rw [greedy_step_cons pool avg cnt rng rw k st pos h]
      have hbf : greedyBest avg cnt rng rw st pos r0 rs
          ∈ pool.filter (fun r => !(st.already_ids.contains r.id)) :=
        greedyBest_mem pool avg cnt rng rw st pos h
      have hstep : pool.filter (fun r =>
            !((addChoice st (greedyBest avg cnt rng rw st pos r0 rs)).already_ids.contains r.id))
          = (pool.filter (fun r => !(st.already_ids.contains r.id))).filter
              (fun r => !(r.id == (greedyBest avg cnt rng rw st pos r0 rs).id)) := by
        rw [List.filter_filter]
        refine List.filter_congr ?_
        intro x _
        simp only [addChoice]
        rw [List.contains_cons, Bool.not_or, Bool.and_comm]
      have hnd' : ((pool.filter (fun r => !(st.already_ids.contains r.id))).map (·.id)).Nodup :=
        hnd.sublist ((List.filter_sublist _).map _)
      have hbid : (greedyBest avg cnt rng rw st pos r0 rs).id
          ∈ (pool.filter (fun r => !(st.already_ids.contains r.id))).map (·.id) :=
        List.mem_map_of_mem _ hbf
      have hflen : (pool.filter (fun r =>
            !((addChoice st (greedyBest avg cnt rng rw st pos r0 rs)).already_ids.contains r.id))).length
          = rs.length := by
        rw [hstep, length_filter_idne hnd' hbid, h]
        simp
      simp only [List.length_cons,
        ih (addChoice st (greedyBest avg cnt rng rw st pos r0 rs))
          (scoreRound avg cnt st rng rw rs (pos + 1)).2, hflen]
      omega

/-! ## Pass-level lemmas -/

lemma quotaPass_length (llm_pool : List Recipe) (avg : String → Option ℚ) (cnt : String → ℕ)
    (ml : ℕ) (rng : ℕ → ℚ) (rw : ℚ) (hnd : (llm_pool.map (·.id)).Nodup) :
    (quotaPass llm_pool avg cnt ml rng rw).1.length = min ml (min 7 llm_pool.length) := by
  unfold quotaPass
  split
  · rename_i he
    rw [List.isEmpty_iff.mp he]
    simp
  · rw [greedy_length llm_pool avg cnt rng rw hnd]
    rw [List.filter_eq_self.mpr (by intro r _; simp [List.contains])]
    omega

lemma quotaPass_mem (llm_pool : List Recipe) (avg : String → Option ℚ) (cnt : String → ℕ)
    (ml : ℕ) (rng : ℕ → ℚ) (rw : ℚ) :
    ∀ r ∈ (quotaPass llm_pool avg cnt ml rng rw).1, r ∈ llm_pool := by
  unfold quotaPass
  split
  · simp
  · intro r hr
    exact ((greedy_spec llm_pool avg cnt rng rw _ _ _).1 r hr).1

lemma quotaPass_state (llm_pool : List Recipe) (avg : String → Option ℚ) (cnt : String → ℕ)
    (ml : ℕ) (rng : ℕ → ℚ) (rw : ℚ) :
    (quotaPass llm_pool avg cnt ml rng rw).2.1.already_ids
      = ((quotaPass llm_pool avg cnt ml rng rw).1.map (·.id)).reverse
    ∧ ((quotaPass llm_pool avg cnt ml rng rw).1.map (·.id)).Nodup := by
  unfold quotaPass
  split
  · simp
  · obtain ⟨_, h2, h3⟩ := greedy_spec llm_pool avg cnt rng rw
      (min ml (min 7 llm_pool.length)) ⟨[], [], []⟩ 0
    exact ⟨by simpa using h2, h3⟩

lemma fillPass_spec (combined : List Recipe) (avg : String → Option ℚ) (cnt : String → ℕ)
    (rng : ℕ → ℚ) (rw : ℚ) (p : List Recipe × DivState × ℕ)
    (hndc : (combined.map (·.id)).Nodup)
    (hstate : p.2.1.already_ids = (p.1.map (·.id)).reverse)
    (hnd1 : (p.1.map (·.id)).Nodup)
    (hmem : ∀ a ∈ p.1.map (·.id), a ∈ combined.map (·.id)) :
    ((fillPass combined avg cnt rng rw p).1.length
        = p.1.length + min (7 - p.1.length) (combined.length - p.1.length))
    ∧ ((fillPass combined avg cnt rng rw p).2.1.already_ids
        = ((fillPass combined avg cnt rng rw p).1.map (·.id)).reverse)
    ∧ ((fillPass combined avg cnt rng rw p).1.map (·.id)).Nodup
    ∧ (∀ a ∈ (fillPass combined avg cnt rng rw p).1.map (·.id),
        a ∈ p.1.map (·.id) ∨ a ∈ combined.map (·.id))
    ∧ (p.1 <+: (fillPass combined avg cnt rng rw p).1) := by
  unfold fillPass
  split
  · rename_i hpos
    have hfilter : (combined.filter (fun r => !(p.2.1.already_ids.contains r.id))).length
        = combined.length - p.1.length := by
      have := length_filter_not_contains (A := p.2.1.already_ids) hndc
        (by rw [hstate]; exact (List.nodup_reverse).mpr hnd1)
        (by intro a ha
            rw [hstate] at ha
            exact hmem a (List.mem_reverse.mp ha))
      rw [this, hstate]
      simp
    obtain ⟨gmem, galready, gnd⟩ := greedy_spec combined avg cnt rng rw
      (7 - p.1.length) p.2.1 p.2.2
    have glen := greedy_length combined avg cnt rng rw hndc (7 - p.1.length) p.2.1 p.2.2
    rw [hfilter] at glen
    refine ⟨?_, ?_, ?_, ?_, ?_⟩
    · simpa using glen
    · simp only [List.map_append, List.reverse_append]
      rw [galready, hstate]
    · rw [List.map_append]
      rw [List.nodup_append]
      refine ⟨hnd1, gnd, ?_⟩
      intro a ha hb
      rcases List.mem_map.mp hb with ⟨r, hr, hre⟩
      have hrc := (gmem r hr).2
      rw [hstate] at hrc
      rw [← hre] at ha
      have : r.id ∈ (p.1.map (·.id)).reverse := List.mem_reverse.mpr ha
      have hcontains : (p.1.map (·.id)).reverse.contains r.id = true := by
        simpa using this
      rw [hcontains] at hrc
      exact absurd hrc (by simp)
    · intro a ha
      rw [List.map_append] at ha
      rcases List.mem_append.mp ha with h1 | h1
      · exact Or.inl h1
      · rcases List.mem_map.mp h1 with ⟨r, hr, hre⟩
        exact Or.inr (hre ▸ List.mem_map_of_mem _ (gmem r hr).1)
    · exact List.prefix_append _ _
  · exact ⟨by omega, hstate, hnd1, fun a ha => Or.inl ha, List.prefix_refl _⟩

lemma padPass_spec (cands : List Recipe) (p : List Recipe × DivState × ℕ)
    (hnd : (cands.map (·.id)).Nodup)
    (hstate : p.2.1.already_ids = (p.1.map (·.id)).reverse)
    (hnd1 : (p.1.map (·.id)).Nodup)
    (hmem : ∀ a ∈ p.1.map (·.id), a ∈ cands.map (·.id)) :
    ((padPass cands p).1.length
        = p.1.length + min (7 - p.1.length) (cands.length - p.1.length))
    ∧ (p.1 <+: (padPass cands p).1) := by
  unfold padPass
  have hfilter : (cands.filter (fun r => !(p.2.1.already_ids.contains r.id))).length
      = cands.length - p.1.length := by
    have := length_filter_not_contains (A := p.2.1.already_ids) hnd
      (by rw [hstate]; exact (List.nodup_reverse).mpr hnd1)
      (by intro a ha
          rw [hstate] at ha
          exact hmem a (List.mem_reverse.mp ha))
    rw [this, hstate]
    simp
  constructor
  · rw [List.length_append, List.length_take, sortByCost_length, hfilter]
  · exact List.prefix_append _ _

/-! ## preSelect and repair lemmas -/

lemma preSelect_facts (cands : List Recipe) (avg : String → Option ℚ) (cnt : String → ℕ)
    (ml : ℕ) (rng : ℕ → ℚ) (rw : ℚ) (hnd : (cands.map (·.id)).Nodup) :
    (preSelect cands avg cnt ml rng rw).1.length = min 7 cands.length
    ∧ ((quotaPass (cands.filter (fun r => r.source == "llm")) avg cnt ml rng rw).1
        <+: (preSelect cands avg cnt ml rng rw).1) := by
  unfold preSelect
  set llm_pool := cands.filter (fun r => r.source == "llm") with hllm
  set curated_pool := cands.filter (fun r => !(r.source == "llm")) with hcur
  have hperm : (llm_pool ++ curated_pool).Perm cands := cands.filter_append_perm _
  have hC : (llm_pool ++ curated_pool).length = cands.length := hperm.length_eq
  have hndc : ((llm_pool ++ curated_pool).map (·.id)).Nodup :=
    ((hperm.map (·.id)).nodup_iff).mpr hnd
  set q := quotaPass llm_pool avg cnt ml rng rw with hq
  have hqlen : q.1.length = min ml (min 7 llm_pool.length) :=
    quotaPass_length llm_pool avg cnt ml rng rw
      (hnd.sublist ((List.filter_sublist _).map _))
  have hqstate := quotaPass_state llm_pool avg cnt ml rng rw
  have hqmem : ∀ a ∈ q.1.map (·.id), a ∈ (llm_pool ++ curated_pool).map (·.id) := by
    intro a ha
    rcases List.mem_map.mp ha with ⟨r, hr, hre⟩
    exact hre ▸ List.mem_map_of_mem _
      (List.mem_append_left _ (quotaPass_mem llm_pool avg cnt ml rng rw r hr))
  obtain ⟨hflen, hfstate, hfnd, hfmem, hfpre⟩ :=
    fillPass_spec (llm_pool ++ curated_pool) avg cnt rng rw q hndc hqstate.1 hqstate.2 hqmem
  set f := fillPass (llm_pool ++ curated_pool) avg cnt rng rw q with hf
  have hfmem' : ∀ a ∈ f.1.map (·.id), a ∈ cands.map (·.id) := by
    intro a ha
    rcases hfmem a ha with h1 | h1
    · have := hqmem a h1
      exact ((hperm.map (·.id)).mem_iff).mp this
    · exact ((hperm.map (·.id)).mem_iff).mp h1
  obtain ⟨hplen, hppre⟩ := padPass_spec cands f hnd hfstate hfnd hfmem'
  have hql7 : q.1.length ≤ 7 := by omega
  have hqlC : q.1.length ≤ cands.length := by
    have h1 : llm_pool.length ≤ cands.length := List.length_filter_le _ _
    omega
  constructor
  · rw [hplen, hflen, hC]
    omega
  · exact hfpre.trans hppre

lemma repairLoop_length (budget : ℚ) :
    ∀ (fuel : ℕ) (chosen pool : List Recipe),
      (repairLoop budget fuel chosen pool).length = chosen.length := by
  intro fuel
  induction fuel with
  | zero => intro chosen pool; rfl
  | succ fuel ih =>
    intro chosen pool
    cases chosen with
    | nil => cases pool <;> rfl
    | cons c0 cs =>
      cases pool with
      | nil => rfl
      | cons cheaper poolRest =>
        simp only [repairLoop]
        split
        · simp
        · exact ih (c0 :: cs) poolRest

lemma repairLoop_result (budget : ℚ) :
    ∀ (fuel : ℕ) (chosen pool : List Recipe),
      repairLoop budget fuel chosen pool = chosen
        ∨ sumCost (repairLoop budget fuel chosen pool) ≤ budget := by
  intro fuel
  induction fuel with
  | zero => intro chosen pool; exact Or.inl rfl
  | succ fuel ih =>
    intro chosen pool
    cases chosen with
    | nil => cases pool <;> exact Or.inl rfl
    | cons c0 cs =>
      cases pool with
      | nil => exact Or.inl rfl
      | cons cheaper poolRest =>
        simp only [repairLoop]
        split
        · rename_i hle
          exact Or.inr hle
        · exact ih (c0 :: cs) poolRest

lemma mem_candsAndFallback {recipes : List Recipe} {prefs : Prefs} {excl : List String}
    {fb : Bool} {r : Recipe} (h : r ∈ (candsAndFallback recipes prefs excl fb).1) :
    r ∈ recipes := by
  unfold candsAndFallback at h
  split at h <;> exact (List.mem_filter.mp h).1

lemma candsAndFallback_nodup {recipes : List Recipe} {prefs : Prefs} {excl : List String}
    {fb : Bool} (hnd : (recipes.map (·.id)).Nodup) :
    (((candsAndFallback recipes prefs excl fb).1).map (·.id)).Nodup := by
  unfold candsAndFallback
  split <;> exact hnd.sublist ((List.filter_sublist _).map _)

lemma finalSelection_length (recipes : List Recipe) (prefs : Prefs) (budget : ℚ)
    (excl : List String) (avg : String → Option ℚ) (cnt : String → ℕ) (fb : Bool)
    (ml : ℕ) (rng : ℕ → ℚ) (rw : ℚ) (hnd : (recipes.map (·.id)).Nodup) :
    (finalSelection recipes prefs budget excl avg cnt fb ml rng rw).length
      = min 7 ((candsAndFallback recipes prefs excl fb).1.length) := by
  unfold finalSelection
  have hpre := (preSelect_facts (candsAndFallback recipes prefs excl fb).1 avg cnt ml rng rw
    (candsAndFallback_nodup hnd)).1
  split
  · rw [repairLoop_length, hpre]
  · exact hpre

/-! ## Zip/count helpers for plan items -/

lemma countP_zip_items (p : String → Bool) :
    ∀ (l1 : List String) (l2 : List Recipe),
      ((l1.zip l2).map (fun q => PlanItem.mk q.1 q.2.id)).countP (fun it => p it.recipe_id)
        = (l2.take l1.length).countP (fun r => p r.id) := by
  intro l1
  induction l1 with
  | nil => intro l2; simp
  | cons a l1 ih =>
    intro l2
    cases l2 with
    | nil => simp
    | cons r l2 =>
      simp only [List.zip_cons_cons, List.map_cons, List.length_cons, List.take_succ_cons,
        List.countP_cons, ih]

/-! ## Claim theorems for the planner -/

/-- C4: for every input to plan_week, the budget-repair pass never increases
total cost: the post-repair selection's total cost is at most the pre-repair
selection's. -/
theorem c4_budget_repair_no_cost_increase (recipes : List Recipe) (prefs : Prefs)
    (budget : ℚ) (excl : List String) (avg : String → Option ℚ) (cnt : String → ℕ)
    (fb : Bool) (ml : ℕ) (rng : ℕ → ℚ) (rw : ℚ) :
    sumCost (finalSelection recipes prefs budget excl avg cnt fb ml rng rw)
      ≤ sumCost ((preSelect (candsAndFallback recipes prefs excl fb).1 avg cnt ml rng rw).1) := by
  unfold finalSelection
  split
  · rename_i hlt
    rcases repairLoop_result budget 12
      (preSelect (candsAndFallback recipes prefs excl fb).1 avg cnt ml rng rw).1
      (sortByCost ((candsAndFallback recipes prefs excl fb).1.filter
        (fun r => !((preSelect (candsAndFallback recipes prefs excl fb).1
            avg cnt ml rng rw).2.already_ids.contains r.id)))) with h | h
    · rw [h]
    · exact h.trans (le_of_lt hlt)
  · exact le_refl _

/-- C9: plan_week is deterministic given its arguments and seed: the only
randomness is the seeded PRNG, modelled as the stream of its uniform draws,
and identical seeds give identical streams, hence identical WeekPlans. -/
theorem c9_plan_week_deterministic (recipes : List Recipe) (prefs : Prefs) (budget : ℚ)
    (excl : List String) (avg : String → Option ℚ) (cnt : String → ℕ) (fb : Bool)
    (ml : ℕ) (rw : ℚ) (rng1 rng2 : ℕ → ℚ) (h : rng1 = rng2) :
    plan_week recipes prefs budget excl avg cnt fb ml rng1 rw
      = plan_week recipes prefs budget excl avg cnt fb ml rng2 rw := by
  rw [h]

theorem c9_witness :
    plan_week [] ⟨true⟩ 100 [] (fun _ => Option.none) (fun _ => 0) true 2 (fun _ => 0) (6/5)
      = plan_week [] ⟨true⟩ 100 [] (fun _ => Option.none) (fun _ => 0) true 2 (fun _ => 0) (6/5) :=
  c9_plan_week_deterministic [] ⟨true⟩ 100 [] (fun _ => Option.none) (fun _ => 0) true 2 (6/5)
    (fun _ => 0) (fun _ => 0) rfl

/-- C1: when at least 7 recipes survive the eligibility filter (pool ids
pairwise distinct, per the data model), plan_week returns exactly 7 items,
one per weekday in the fixed order Mon..Sun, and its totals are the rounded
aggregates of the 7 chosen recipes (cost to 2 decimals, protein and fiber to
1 decimal). -/
theorem c1_plan_week_seven_items (recipes : List Recipe) (prefs : Prefs) (budget : ℚ)
    (excl : List String) (avg : String → Option ℚ) (cnt : String → ℕ) (fb : Bool)
    (ml : ℕ) (rng : ℕ → ℚ) (rw : ℚ)
    (hnd : (recipes.map (·.id)).Nodup)
    (h7 : 7 ≤ (eligibleRecipes recipes prefs excl true).length) :
    (plan_week recipes prefs budget excl avg cnt fb ml rng rw).items.length = 7
    ∧ (plan_week recipes prefs budget excl avg cnt fb ml rng rw).items.map (·.day) = DAYS
    ∧ ∃ sel : List Recipe, sel.length = 7
        ∧ (plan_week recipes prefs budget excl avg cnt fb ml rng rw).items.map (·.recipe_id)
            = sel.map (·.id)
        ∧ (plan_week recipes prefs budget excl avg cnt fb ml rng rw).total_cost_usd
            = round2 (sumCost sel)
        ∧ (plan_week recipes prefs budget excl avg cnt fb ml rng rw).protein_g_total
            = round1 (sumProtein sel)
        ∧ (plan_week recipes prefs budget excl avg cnt fb ml rng rw).fiber_g_total
            = round1 (sumFiber sel) := by
  have hclen : 7 ≤ (candsAndFallback recipes prefs excl fb).1.length := by
    unfold candsAndFallback
    split
    · rename_i hcond
      exfalso
      have h1 := (Bool.and_eq_true _ _ |>.mp hcond).1
      simp only [decide_eq_true_eq] at h1
      omega
    · simpa using h7
  have hsel : (finalSelection recipes prefs budget excl avg cnt fb ml rng rw).length = 7 := by
    rw [finalSelection_length recipes prefs budget excl avg cnt fb ml rng rw hnd]
    omega
  have hitems : (plan_week recipes prefs budget excl avg cnt fb ml rng rw).items
      = (DAYS.zip (finalSelection recipes prefs budget excl avg cnt fb ml rng rw)).map
          (fun p => PlanItem.mk p.1 p.2.id) := rfl
  refine ⟨?_, ?_, ⟨finalSelection recipes prefs budget excl avg cnt fb ml rng rw,
    hsel, ?_, rfl, rfl, rfl⟩⟩
  · rw [hitems]
    simp [List.length_zip, hsel, DAYS]
  · rw [hitems, List.map_map]
    have hfun : ((fun it : PlanItem => it.day)
        ∘ (fun p : String × Recipe => PlanItem.mk p.1 p.2.id)) = Prod.fst := rfl
    rw [hfun]
    exact List.map_fst_zip DAYS _ (by rw [hsel]; decide)
  · rw [hitems, List.map_map]
    have hfun : ((fun it : PlanItem => it.recipe_id)
        ∘ (fun p : String × Recipe => PlanItem.mk p.1 p.2.id))
        = (fun r : Recipe => r.id) ∘ Prod.snd := rfl
    rw [hfun, ← List.map_map]
    rw [List.map_snd_zip DAYS _ (by rw [hsel]; decide)]

/-- Concrete 7-recipe pool for the C1 witness: distinct ids, all eligible. -/
def sevenRecs : List Recipe :=
  ["r1", "r2", "r3", "r4", "r5", "r6", "r7"].map (fun s =>
    { id := s, name := "y", tags := [], method := "m1", minutes := 20, ingredients := [],
      macros := { protein_g := 50, fiber_g := 10, kcals := 600 }, cost_usd := 1,
      source := "curated" })

theorem c1_witness :
    (plan_week sevenRecs ⟨true⟩ 100 [] (fun _ => Option.none) (fun _ => 0) true 2
        (fun _ => 0) (6/5)).items.length = 7
    ∧ (plan_week sevenRecs ⟨true⟩ 100 [] (fun _ => Option.none) (fun _ => 0) true 2
        (fun _ => 0) (6/5)).items.map (·.day) = DAYS
    ∧ ∃ sel : List Recipe, sel.length = 7
        ∧ (plan_week sevenRecs ⟨true⟩ 100 [] (fun _ => Option.none) (fun _ => 0) true 2
            (fun _ => 0) (6/5)).items.map (·.recipe_id) = sel.map (·.id)
        ∧ (plan_week sevenRecs ⟨true⟩ 100 [] (fun _ => Option.none) (fun _ => 0) true 2
            (fun _ => 0) (6/5)).total_cost_usd = round2 (sumCost sel)
        ∧ (plan_week sevenRecs ⟨true⟩ 100 [] (fun _ => Option.none) (fun _ => 0) true 2
            (fun _ => 0) (6/5)).protein_g_total = round1 (sumProtein sel)
        ∧ (plan_week sevenRecs ⟨true⟩ 100 [] (fun _ => Option.none) (fun _ => 0) true 2
            (fun _ => 0) (6/5)).fiber_g_total = round1 (sumFiber sel) :=
  c1_plan_week_seven_items sevenRecs ⟨true⟩ 100 [] (fun _ => Option.none) (fun _ => 0) true 2
    (fun _ => 0) (6/5) (by decide) (by decide)

/-- C2, counterexample: with an empty pool (so padding cannot reach 7 items),
plan_week still returns normally, emitting a WeekPlan with 0 items instead of
signalling any error; no InsufficientRecipesError exists in the code. -/
theorem c2_counterexample :
    (plan_week [] ⟨true⟩ 100 [] (fun _ => Option.none) (fun _ => 0) true 2
        (fun _ => 0) (6/5)).items.length = 0 := by
  rfl

/-- C2 amended: plan_week never raises; it returns a WeekPlan whose item count
is `min 7 (number of eligible candidates after the optional fallback)` — in
particular a silent short plan whenever fewer than 7 eligible recipes exist. -/
theorem c2_amended_short_plan (recipes : List Recipe) (prefs : Prefs) (budget : ℚ)
    (excl : List String) (avg : String → Option ℚ) (cnt : String → ℕ) (fb : Bool)
    (ml : ℕ) (rng : ℕ → ℚ) (rw : ℚ)
    (hnd : (recipes.map (·.id)).Nodup) :
    (plan_week recipes prefs budget excl avg cnt fb ml rng rw).items.length
      = min 7 ((candsAndFallback recipes prefs excl fb).1.length) := by
  have hitems : (plan_week recipes prefs budget excl avg cnt fb ml rng rw).items
      = (DAYS.zip (finalSelection recipes prefs budget excl avg cnt fb ml rng rw)).map
          (fun p => PlanItem.mk p.1 p.2.id) := rfl
  rw [hitems]
  simp only [List.length_map, List.length_zip]
  rw [finalSelection_length recipes prefs budget excl avg cnt fb ml rng rw hnd]
  have : DAYS.length = 7 := rfl
  rw [this]
  omega

theorem c2_amended_witness :
    (plan_week [] ⟨true⟩ 50 [] (fun _ => Option.none) (fun _ => 0) false 0
        (fun _ => 0) 1).items.length
      = min 7 ((candsAndFallback [] ⟨true⟩ [] false).1.length) :=
  c2_amended_short_plan [] ⟨true⟩ 50 [] (fun _ => Option.none) (fun _ => 0) false 0
    (fun _ => 0) 1 (by decide)

/-- Concrete generated-source recipe used in the C3 counterexample and witness. -/
def llmRec : Recipe :=
  { id := "l1", name := "x1", tags := [], method := "m1", minutes := 20, ingredients := [],
    macros := { protein_g := 50, fiber_g := 10, kcals := 600 }, cost_usd := 17,
    source := "llm" }

/-- Seven cheap curated recipes sharing every scored attribute. -/
def cheapCurated : List Recipe :=
  ["c1", "c2", "c3", "c4", "c5", "c6", "c7"].map (fun s =>
    { id := s, name := "y", tags := [], method := "m1", minutes := 20, ingredients := [],
      macros := { protein_g := 50, fiber_g := 10, kcals := 600 }, cost_usd := 1,
      source := "curated" })

/-- C3, counterexample: the eligible generated pool has 1 ≥ min_llm = 1 recipe
with a distinct id, yet the returned plan contains 0 generated-source items:
the budget-repair pass swaps the expensive generated pick out for a cheaper
curated one. -/
theorem c3_counterexample :
    ((plan_week (llmRec :: cheapCurated) ⟨true⟩ 10 [] (fun _ => Option.none) (fun _ => 0)
        true 1 (fun _ => 0) (6/5)).items.countP
      (fun it => (llmIds (llmRec :: cheapCurated)).contains it.recipe_id)) = 0 := by
  set_option maxRecDepth 20000 in
  with_unfolding_all decide

/-- C3 amended: the quota does hold up to the budget-repair pass: whenever the
eligible generated pool holds at least `min_llm` recipes (pool ids pairwise
distinct) and the pre-repair selection is within budget (so the repair pass
does not run), the plan contains at least `min(min_llm, 7)` generated items.
The repair pass may displace generated picks (see the counterexample). -/
theorem c3_amended_quota (recipes : List Recipe) (prefs : Prefs) (budget : ℚ)
    (excl : List String) (avg : String → Option ℚ) (cnt : String → ℕ) (fb : Bool)
    (ml : ℕ) (rng : ℕ → ℚ) (rw : ℚ)
    (hnd : (recipes.map (·.id)).Nodup)
    (hml : ml ≤ ((candsAndFallback recipes prefs excl fb).1.filter
        (fun r => r.source == "llm")).length)
    (hbud : sumCost ((preSelect (candsAndFallback recipes prefs excl fb).1
        avg cnt ml rng rw).1) ≤ budget) :
    min ml 7 ≤ (plan_week recipes prefs budget excl avg cnt fb ml rng rw).items.countP
      (fun it => (llmIds recipes).contains it.recipe_id) := by
  have hndc := @candsAndFallback_nodup recipes prefs excl fb hnd
  have hqlen : (quotaPass ((candsAndFallback recipes prefs excl fb).1.filter
        (fun r => r.source == "llm")) avg cnt ml rng rw).1.length
      = min ml (min 7 ((candsAndFallback recipes prefs excl fb).1.filter
        (fun r => r.source == "llm")).length) :=
    quotaPass_length _ avg cnt ml rng rw (hndc.sublist ((List.filter_sublist _).map _))
  have hq7 : (quotaPass ((candsAndFallback recipes prefs excl fb).1.filter
        (fun r => r.source == "llm")) avg cnt ml rng rw).1.length = min ml 7 := by
    rw [hqlen]; omega
  have hfs : finalSelection recipes prefs budget excl avg cnt fb ml rng rw
      = (preSelect (candsAndFallback recipes prefs excl fb).1 avg cnt ml rng rw).1 := by
    unfold finalSelection
    rw [if_neg (not_lt.mpr hbud)]
  have hitems : (plan_week recipes prefs budget excl avg cnt fb ml rng rw).items
      = (DAYS.zip (finalSelection recipes prefs budget excl avg cnt fb ml rng rw)).map
          (fun p => PlanItem.mk p.1 p.2.id) := rfl
  rw [hitems, hfs, countP_zip_items]
  obtain ⟨t, ht⟩ := (preSelect_facts (candsAndFallback recipes prefs excl fb).1
    avg cnt ml rng rw hndc).2
  rw [← ht]
  have hdl : DAYS.length = 7 := rfl
  rw [hdl]
  rw [List.take_append_eq_append_take]
  rw [List.take_of_length_le (by rw [hq7]; omega)]
  rw [List.countP_append]
  have hall : (quotaPass ((candsAndFallback recipes prefs excl fb).1.filter
        (fun r => r.source == "llm")) avg cnt ml rng rw).1.countP
      (fun r => (llmIds recipes).contains r.id)
      = (quotaPass ((candsAndFallback recipes prefs excl fb).1.filter
        (fun r => r.source == "llm")) avg cnt ml rng rw).1.length := by
    rw [List.countP_eq_length]
    intro r hr
    have hrl := quotaPass_mem _ avg cnt ml rng rw r hr
    have hrs : r.source == "llm" := (List.mem_filter.mp hrl).2
    have hrr : r ∈ recipes := mem_candsAndFallback (List.mem_filter.mp hrl).1
    have : r.id ∈ llmIds recipes :=
      List.mem_map_of_mem _ (List.mem_filter.mpr ⟨hrr, hrs⟩)
    simpa using this
  omega

theorem c3_witness :
    min 1 7 ≤ (plan_week [llmRec] ⟨true⟩ 100 [] (fun _ => Option.none) (fun _ => 0) true 1
        (fun _ => 0) (6/5)).items.countP
      (fun it => (llmIds [llmRec]).contains it.recipe_id) :=
  c3_amended_quota [llmRec] ⟨true⟩ 100 [] (fun _ => Option.none) (fun _ => 0) true 1
    (fun _ => 0) (6/5) (by decide) (by decide) (by with_unfolding_all decide)

/-! ## Claim theorems for scoring and the validation pipeline -/

/-- C8: the score is exactly the sum of base, rating bias with cold-start
dampening (strength 1 for at least two ratings, 1/2 for exactly one, 0 for
none or unknown average), a 0.15 method-diversity bonus, a 0.15
protein-group-diversity bonus, a 0.10 novelty bonus for generated recipes,
and the jitter draw. -/
theorem c8_score_formula (r : Recipe) (avg : String → Option ℚ) (cnt : String → ℕ)
    (used_methods used_groups : List String) (jitter rating_weight : ℚ) :
    _score r avg cnt used_methods used_groups jitter rating_weight
      = (3/10 * r.macros.protein_g + 3/20 * r.macros.fiber_g - 1/4 * r.cost_usd)
        + (match avg r.id with
            | some a => (a - 3) * (3/4)
                * (if 2 ≤ cnt r.id then 1 else if cnt r.id = 1 then 1/2 else 0)
            | none => 0) * rating_weight
        + (if used_methods.contains r.method then 0 else 3/20)
        + (if used_groups.contains (_protein_group r.name r.ingredients) then 0 else 3/20)
        + (if r.source = "llm" then 1/10 else 0)
        + jitter := rfl

/-- C5, counterexample: the normalizer is not total — a non-numeric string in
`minutes` makes Python's bare `int(...)` raise ValueError, so normalization
fails instead of returning a Recipe. -/
theorem c5_counterexample :
    (normalize_llm_candidate [("minutes", RawValue.str "abc")]).isOk = false := rfl

/-- Discriminator for Python values that support `.get` (dicts). -/
def isRawDict : RawValue → Bool
  | .dict _ => true
  | _ => false

/-- Entries of a dict value (empty for non-dicts). -/
def rawEntries : RawValue → List (String × RawValue)
  | .dict m => m
  | _ => []

/-- C5 amended: normalization succeeds — yielding a record with every
required field, `source = "llm"`, and best-effort macro/cost coercion that
silently replaces non-numeric values by 0.0 — provided `tags` and
`ingredients` coerce to sequences, `minutes` coerces to an int, and `macros`
is a mapping; outside those conditions it raises (see the counterexample). -/
theorem c5_amended_normalize (c : RawDict)
    (htags : (pyListOpt (rawGetD c "tags" (.list []))).isSome)
    (hmin : (pyIntOpt (rawGetD c "minutes" (.int 0))).isSome)
    (hing : (pyListOpt (rawGetD c "ingredients" (.list []))).isSome)
    (hmac : isRawDict (rawGetD c "macros" (.dict [])) = true) :
    ∃ d, normalize_llm_candidate c = .ok d
      ∧ rawGet d "source" = some (.str "llm")
      ∧ (∀ k ∈ REQUIRED_RECIPE_KEYS, (d.map (·.1)).contains k = true)
      ∧ rawGet d "cost_usd" = some (.float (_float (rawGetD c "cost_usd" (.int 0)) 0))
      ∧ rawGet d "macros" = some (.dict
          [("protein_g", .float (_float (rawGetD (rawEntries (rawGetD c "macros" (.dict [])))
              "protein_g" (.int 0)) 0)),
           ("fiber_g", .float (_float (rawGetD (rawEntries (rawGetD c "macros" (.dict [])))
              "fiber_g" (.int 0)) 0)),
           ("kcals", .float (_float (rawGetD (rawEntries (rawGetD c "macros" (.dict [])))
              "kcals" (.int 0)) 0))]) := by
  obtain ⟨tags, htags2⟩ := Option.isSome_iff_exists.mp htags
  obtain ⟨minutes, hmin2⟩ := Option.isSome_iff_exists.mp hmin
  obtain ⟨ings, hing2⟩ := Option.isSome_iff_exists.mp hing
  cases hm : rawGetD c "macros" (.dict []) with
  | dict m =>
    unfold normalize_llm_candidate
    rw [htags2, hmin2, hing2, hm]
    exact ⟨_, rfl, rfl, by intro k hk; fin_cases hk <;> rfl, rfl, rfl⟩
  | none => rw [hm] at hmac; exact absurd hmac (by simp [isRawDict])
  | str s => rw [hm] at hmac; exact absurd hmac (by simp [isRawDict])
  | int n => rw [hm] at hmac; exact absurd hmac (by simp [isRawDict])
  | float q => rw [hm] at hmac; exact absurd hmac (by simp [isRawDict])
  | list xs => rw [hm] at hmac; exact absurd hmac (by simp [isRawDict])

theorem c5_witness :
    ∃ d, normalize_llm_candidate [] = .ok d
      ∧ rawGet d "source" = some (.str "llm")
      ∧ (∀ k ∈ REQUIRED_RECIPE_KEYS, (d.map (·.1)).contains k = true)
      ∧ rawGet d "cost_usd" = some (.float (_float (rawGetD [] "cost_usd" (.int 0)) 0))
      ∧ rawGet d "macros" = some (.dict
          [("protein_g", .float (_float (rawGetD (rawEntries (rawGetD [] "macros" (.dict [])))
              "protein_g" (.int 0)) 0)),
           ("fiber_g", .float (_float (rawGetD (rawEntries (rawGetD [] "macros" (.dict [])))
              "fiber_g" (.int 0)) 0)),
           ("kcals", .float (_float (rawGetD (rawEntries (rawGetD [] "macros" (.dict [])))
              "kcals" (.int 0)) 0))]) :=
  c5_amended_normalize [] (by rfl) (by rfl) (by rfl) (by rfl)

/-- C10: every record the normalizer returns passes schema validation with
`(true, [])` — the schema-rejection branch after normalization is
unreachable. -/
theorem c10_normalize_validates (c : RawDict) (d : RawDict)
    (h : normalize_llm_candidate c = .ok d) :
    validate_recipe_schema d = (true, []) := by
  unfold normalize_llm_candidate at h
  cases h1 : pyListOpt (rawGetD c "tags" (.list [])) with
  | none => simp [h1] at h
  | some tags =>
    cases h2 : pyIntOpt (rawGetD c "minutes" (.int 0)) with
    | none => simp [h1, h2] at h
    | some minutes =>
      cases h3 : pyListOpt (rawGetD c "ingredients" (.list [])) with
      | none => simp [h1, h2, h3] at h
      | some ings =>
        cases h4 : rawGetD c "macros" (.dict []) with
        | dict m =>
          simp only [h1, h2, h3, h4, Except.ok.injEq] at h
          subst h
          rfl
        | none => simp [h1, h2, h3, h4] at h
        | str s => simp [h1, h2, h3, h4] at h
        | int n => simp [h1, h2, h3, h4] at h
        | float q => simp [h1, h2, h3, h4] at h
        | list xs => simp [h1, h2, h3, h4] at h

theorem c10_witness :
    validate_recipe_schema
      [("id", RawValue.str "None"), ("name", RawValue.str "None"), ("tags", RawValue.list []),
       ("method", RawValue.str "stovetop"), ("minutes", RawValue.int 0),
       ("ingredients", RawValue.list []),
       ("macros", RawValue.dict [("protein_g", RawValue.float 0),
          ("fiber_g", RawValue.float 0), ("kcals", RawValue.float 0)]),
       ("cost_usd", RawValue.float 0), ("source", RawValue.str "llm")] = (true, []) :=
  c10_normalize_validates [] _ (by rfl)

/-- The raw "Spicy Kale Bowl!" candidate of the spec scenario (no name field). -/
def spicyKaleRaw : RawDict :=
  [("id", RawValue.str "Spicy Kale Bowl!"),
   ("macros", RawValue.dict [("protein_g", RawValue.int 50), ("fiber_g", RawValue.int 10),
      ("kcals", RawValue.int 600)]),
   ("cost_usd", RawValue.int 10)]

/-- The candidate after the CLI's id-slugification step (`c["id"] = slugify(str(cid))`). -/
def spicyKaleSlugged : RawDict :=
  rawSet spicyKaleRaw "id" (RawValue.str (slugify "x" "Spicy Kale Bowl!"))

/-- The CLI pipeline tail for one candidate: normalize, then the guardrail
filter (with the default `avoid_whole_tomatoes = True`); a normalization
error propagates. -/
def guardrailAfterNormalize (c : RawDict) : Except String Bool :=
  match normalize_llm_candidate c with
  | .ok n => hard_guardrails n true
  | .error e => .error e

/-- C6, counterexample: the id does slugify to "spicy-kale-bowl", but the
Guardrail Filter ACCEPTS the normalized candidate instead of rejecting it:
the banned token "kale" lives only in the id, and hard_guardrails checks only
the name (here "None", since the candidate has no name) and the tags (empty). -/
theorem c6_counterexample :
    slugify "x" "Spicy Kale Bowl!" = "spicy-kale-bowl"
    ∧ guardrailAfterNormalize spicyKaleSlugged = Except.ok true := ⟨rfl, rfl⟩

/-- C6 amended: the slugified id is "spicy-kale-bowl"; normalization gives the
candidate the name "None" (it has no name field), and the Guardrail Filter
accepts it, because its name/tag checks never look at the id. -/
theorem c6_amended_guardrail_accepts :
    slugify "x" "Spicy Kale Bowl!" = "spicy-kale-bowl"
    ∧ ∃ n, normalize_llm_candidate spicyKaleSlugged = Except.ok n
        ∧ rawGet n "name" = some (RawValue.str "None")
        ∧ hard_guardrails n true = Except.ok true :=
  ⟨rfl, _, rfl, rfl, rfl⟩

/-- Concrete recipe separating the two filters: `hard_guardrails` rejects any
name containing "extra spicy"; `_ok` has no such check. -/
def extraSpicyRec : Recipe :=
  { id := "e1", name := "Extra Spicy Chicken", tags := [], method := "m1", minutes := 20,
    ingredients := [], macros := { protein_g := 50, fiber_g := 10, kcals := 600 },
    cost_usd := 10, source := "curated" }

/-- C7, counterexample: the per-plan filter and the Guardrail Filter disagree:
on a recipe named "Extra Spicy Chicken" (eligible macros/cost, no tags),
hard_guardrails returns false while _ok returns true. -/
theorem c7_counterexample :
    hard_guardrails (Recipe.toDict extraSpicyRec) true = Except.ok false
    ∧ _ok extraSpicyRec ⟨true⟩ = true := ⟨rfl, rfl⟩

/-- C7 amended: on recipes with no tags and no "extra spicy" marker in the
name, the per-plan filter `_ok` and the Guardrail Filter agree (and the
guardrail raises nothing).  The two filters genuinely differ elsewhere: only
hard_guardrails checks "extra spicy" in the name, and their tag matching
differs (joined case-insensitive substring vs per-tag/exact matching). -/
theorem c7_amended_filters_agree (r : Recipe) (prefs : Prefs)
    (htags : r.tags = [])
    (hname : strContains (lowerStr r.name) "extra spicy" = false) :
    hard_guardrails (Recipe.toDict r) prefs.avoid_whole_tomatoes = Except.ok (_ok r prefs) := by
  have hjoin : pyJoinSpace (RawValue.list []) = some "" := rfl
  have hlow : lowerStr "" = "" := rfl
  have h1 : strContains "" "shellfish" = false := rfl
  have h2 : strContains "" "raw onion" = false := rfl
  have h3 : strContains "" "kale" = false := rfl
  have h4 : strContains "" "very_spicy" = false := rfl
  have h5 : strContains "" "whole_tomatoes" = false := rfl
  simp [hard_guardrails, Recipe.toDict, _ok, htags, rawGetD, rawGet,
    pyNumOpt, pyFloatOpt, MAX_MEAL_COST, BANNED_TOKENS, hjoin, hlow,
    h1, h2, h3, h4, h5, hname]
  by_cases ha1 : strContains (lowerStr r.name) "shellfish" = true <;>
  by_cases ha2 : strContains (lowerStr r.name) "raw onion" = true <;>
  by_cases ha3 : strContains (lowerStr r.name) "kale" = true <;>
  by_cases hp : r.macros.protein_g < 40 <;>
  by_cases hf : r.macros.fiber_g < 6 <;>
  by_cases hc : (18 : ℚ) < r.cost_usd <;>
  simp [ha1, ha2, ha3, hp, hf, hc]

theorem c7_witness :
    hard_guardrails (Recipe.toDict llmRec) (Prefs.mk true).avoid_whole_tomatoes
      = Except.ok (_ok llmRec (Prefs.mk true)) :=
  c7_amended_filters_agree llmRec (Prefs.mk true) rfl rfl
